import Mathlib

/-!
Shallow embedding of the DashboardAgente analytics core
(`utils.py`, `data_loader.py`, call sites in `app.py`).

Text is modelled as `List Char`; identifiers (conversation names,
category names) as `String`; scores as `ℚ` (all scores are small
rationals `m / k` with `k ≤ 9`, whose ordering agrees with the
floating-point ordering computed by the program).  Tabular data is a
list of row structures; a missing / NaN cell is `Option.none`.
-/

namespace Dashboard

/-- The whitespace characters matched by the regex class `\s`. -/
def esEspacio (c : Char) : Bool :=
  c == ' ' || c == '\t' || c == '\n' || c == '\r' ||
  c == Char.ofNat 11 || c == Char.ofNat 12

/-- The accented letters listed explicitly in the character class of
`limpiar_texto`'s first regex, `[^\w\sáéíóúñü]`. -/
def ACENTOS_MINUSCULAS : List Char := ['á', 'é', 'í', 'ó', 'ú', 'ñ', 'ü']

/-- Uppercase accented letters (cased counterparts used by `lower`/`title`). -/
def ACENTOS_MAYUSCULAS : List Char := ['Á', 'É', 'Í', 'Ó', 'Ú', 'Ñ', 'Ü']

/-- A character kept by the regex `[^\w\sáéíóúñü]` substitution: a word
character (`\w`: letters, digits, underscore) or one of the accented
letters named in the class. -/
def esCaracterPalabra (c : Char) : Bool :=
  c.isAlpha || c.isDigit || c == '_' ||
  ACENTOS_MINUSCULAS.contains c || ACENTOS_MAYUSCULAS.contains c

/-- Lowercasing table over the program's alphabet (`str.lower`). -/
def MINUSCULAS : List (Char × Char) :=
  [('A','a'),('B','b'),('C','c'),('D','d'),('E','e'),('F','f'),('G','g'),
   ('H','h'),('I','i'),('J','j'),('K','k'),('L','l'),('M','m'),('N','n'),
   ('O','o'),('P','p'),('Q','q'),('R','r'),('S','s'),('T','t'),('U','u'),
   ('V','v'),('W','w'),('X','x'),('Y','y'),('Z','z'),
   ('Á','á'),('É','é'),('Í','í'),('Ó','ó'),('Ú','ú'),('Ñ','ñ'),('Ü','ü')]

/-- `str.lower` on one character. -/
def pyMinuscula (c : Char) : Char :=
  match MINUSCULAS.find? (fun p => p.1 == c) with
  | some p => p.2
  | none => c

/-- `str.upper` on one character (used by `str.title`). -/
def pyMayuscula (c : Char) : Char :=
  match MINUSCULAS.find? (fun p => p.2 == c) with
  | some p => p.1
  | none => c

/-- A cased character in the program's alphabet (`str.title` treats a
character as starting a new word when the previous one is not cased). -/
def esCased (c : Char) : Bool :=
  c.isAlpha || ACENTOS_MINUSCULAS.contains c || ACENTOS_MAYUSCULAS.contains c

/-- `str.strip`: drop whitespace from both ends. -/
def recortar (s : List Char) : List Char :=
  ((s.dropWhile esEspacio).reverse.dropWhile esEspacio).reverse

/-- `re.sub(r'[^\w\sáéíóúñü]', ' ', texto)`: replace every character that
is neither a word character, whitespace, nor a listed accent by a space. -/
def sustituirNoPalabra (s : List Char) : List Char :=
  s.map (fun c => if esCaracterPalabra c || esEspacio c then c else ' ')

/-- Helper for `colapsarEspacios`: the flag records whether we are inside
a whitespace run whose single replacement space was already emitted. -/
def colapsarAux : Bool → List Char → List Char
  | _, [] => []
  | enEspacio, c :: t =>
    if esEspacio c then
      if enEspacio then colapsarAux true t else ' ' :: colapsarAux true t
    else c :: colapsarAux false t

/-- `re.sub(r'\s+', ' ', texto)`: collapse each maximal whitespace run
into a single space. -/
def colapsarEspacios (s : List Char) : List Char := colapsarAux false s

/-- `limpiar_texto` on an actual string (`utils.py`):
lower, strip, substitute non-word characters, collapse whitespace, strip. -/
def limpiar_texto (s : List Char) : List Char :=
  recortar (colapsarEspacios (sustituirNoPalabra (recortar (s.map pyMinuscula))))

/-- `limpiar_texto` on an arbitrary cell value: a non-string (missing /
NaN) value yields the empty string. -/
def limpiar_valor : Option (List Char) → List Char
  | none => []
  | some s => limpiar_texto s

/-- `SALUDOS_BASICOS` (`utils.py`). -/
def SALUDOS_BASICOS : List (List Char) :=
  ["hola", "buenos dias", "buenas tardes", "buenas noches", "gracias",
   "adios", "si", "no", "ok", "aja", "bien", "perfecto", "excelente",
   "de acuerdo", "entendido", "claro", "por favor", "disculpa"].map String.toList

/-- `PALABRAS_RUIDO` (`utils.py`). -/
def PALABRAS_RUIDO : List (List Char) :=
  ["", "si", "no", "ok", "a", "e", "o", "de", "la", "el",
   "mi", "que", "es", "un", "una", "los", "las", "y", "en",
   "con", "para", "por"].map String.toList

/-- Helper for `separarPalabras`: `actual` accumulates the current token
in reverse. -/
def separarAux : List Char → List Char → List (List Char)
  | actual, [] => if actual.isEmpty then [] else [actual.reverse]
  | actual, c :: t =>
    if esEspacio c then
      if actual.isEmpty then separarAux [] t
      else actual.reverse :: separarAux [] t
    else separarAux (c :: actual) t

/-- `str.split()`: split on maximal whitespace runs, dropping empties. -/
def separarPalabras (s : List Char) : List (List Char) := separarAux [] s

/-- Helper for `clavesEnOrden`: `vistos` is the set of keys already seen. -/
def clavesAux {α : Type} [DecidableEq α] : List α → List α → List α
  | _, [] => []
  | vistos, x :: t =>
    if x ∈ vistos then clavesAux vistos t else x :: clavesAux (x :: vistos) t

/-- First-appearance-ordered distinct elements of a list: the key order
produced by the pandas hash tables behind `groupby` / `value_counts`. -/
def clavesEnOrden {α : Type} [DecidableEq α] (l : List α) : List α :=
  clavesAux [] l

/-- `es_saludo_basico` (`utils.py`): normalize, split into the set of
words, true iff the set meets `SALUDOS_BASICOS` and has at most 3 words. -/
def es_saludo_basico (texto : Option (List Char)) : Bool :=
  let palabras := clavesEnOrden (separarPalabras (limpiar_valor texto))
  palabras.any (fun w => w ∈ SALUDOS_BASICOS) && palabras.length ≤ 3

/-- `CATEGORIAS_SUBCATEGORIAS` (`utils.py`), in dictionary insertion
order: category → subcategory → keyword list. -/
def CATEGORIAS_SUBCATEGORIAS : List (String × List (String × List String)) :=
  [("Gestión de Pedidos",
    [("Rastreo y Estatus", ["pedido", "rastrear", "estatus", "guia", "donde viene", "llegado", "seguimiento", "envio", "paquete"]),
     ("Modificación y Cancelación", ["cambiar", "modificar", "cancelar", "dirección", "devolver", "reembolso"]),
     ("Problemas con Pedido", ["incompleto", "dañado", "equivocado", "problema", "falta", "error", "mal estado"])]),
   ("Purificadores - Info General",
    [("Comparativa de Modelos", ["diferencia", "comparar", "cual elegir", "modelos", "tipos", "mejor", "versus", "vs"]),
     ("Beneficios y Características", ["beneficios", "ventajas", "por que comprar", "para que sirve", "ahorro", "salud", "caracteristicas", "especificaciones"])]),
   ("Purificador ALX1",
    [("Funcionalidad ALX1", ["alx1", "alta demanda", "conecta", "directo", "presion", "flujo continuo"]),
     ("App y Monitoreo", ["app", "aplicacion", "monitorear", "calidad", "consumo", "cartuchos", "notificaciones"]),
     ("Instalación ALX1", ["instalar alx1", "conexion", "toma de agua", "bajo tarja", "llave de paso"])]),
   ("Purificador ALX2",
    [("Funcionalidad ALX2", ["alx2", "portatil", "contenedor", "llenar", "6 litros", "tanque", "deposito"]),
     ("Agua Alcalina", ["alcalina", "ph", "alcalinidad", "minerales", "ionizada"]),
     ("Control de Temperatura", ["temperatura", "frio", "caliente", "4 grados", "100 grados"])]),
   ("Tecnología y Filtración",
    [("Osmosis Inversa", ["osmosis", "inversa", "ro", "membrana", "sales", "minerales disueltos"]),
     ("Cartuchos y Filtros", ["cartucho", "filtro", "sedimentos", "carbon", "vida util", "cambio", "repuesto"]),
     ("Calidad del Agua", ["purificada", "segura", "impurezas", "bacterias", "cloro", "sabor", "olor"])]),
   ("Mantenimiento y Soporte",
    [("Cambio de Filtros", ["cambiar filtro", "reemplazar cartucho", "mantenimiento", "cuando cambiar", "frecuencia"]),
     ("Instalación General", ["instalar", "instalacion", "bajo fregadero", "conexion", "plomero", "tutorial"]),
     ("Garantías y Soporte", ["garantia", "devolucion", "reparacion", "soporte", "servicio tecnico", "falla"])]),
   ("Interacciones Generales",
    [("Saludos y Cortesía", ["hola", "buenos dias", "buenas tardes", "gracias", "adios", "buenas noches"]),
     ("Consultas de Cuenta", ["mi cuenta", "contraseña", "datos personales", "perfil", "usuario", "registro"])]),
   ("Sin Clasificar",
    [("Otros", ["otros", "miscelaneos", "sin categoria"])])]

/-- The taxonomy flattened to (category, subcategory, keywords) triples,
in the iteration order of the two nested `for` loops of
`clasificar_consulta`. -/
def entradasTaxonomia : List (String × String × List String) :=
  CATEGORIAS_SUBCATEGORIAS.flatMap (fun ce => ce.2.map (fun se => (ce.1, se.1, se.2)))

/-- Python's substring test `kw in pregunta`. -/
def esSubcadena (kw : List Char) : List Char → Bool
  | [] => kw.isEmpty
  | c :: t => kw.isPrefixOf (c :: t) || esSubcadena kw t

/-- One row of the loaded table.  `none` models a missing column or a
NaN cell; `pregunta_limpia` is present once the pipeline has added it. -/
structure Fila where
  user_utterances : Option (List Char)
  conversation_name : String
  turn_position : Nat
  intent_name : Option String := none
  pregunta_limpia : Option (List Char) := none
  live_agent_handoff : Bool := false
  end_session_exit : Bool := false
deriving DecidableEq, Repr

/-- Sentinel intent values ignored by the classifier. -/
def SENTINELAS_INTENT : List String := ["UNSPECIFIED", "", "Default Welcome Intent"]

/-- `intent.replace('_', ' ')`. -/
def reemplazarGuionBajo (s : List Char) : List Char :=
  s.map (fun c => if c = '_' then ' ' else c)

/-- `str.title`, threading whether the previous character was cased. -/
def tituloAux : Bool → List Char → List Char
  | _, [] => []
  | prev, c :: t =>
    (if esCased c then (if prev then pyMinuscula c else pyMayuscula c) else c)
      :: tituloAux (esCased c) t

/-- `str.title`. -/
def pyTitle (s : List Char) : List Char := tituloAux false s

/-- `matches = sum(1 for keyword in keywords if keyword in pregunta)`. -/
def contarCoincidencias (pregunta : List Char) (kws : List String) : Nat :=
  kws.countP (fun kw => esSubcadena kw.toList pregunta)

/-- The body of the two nested loops of `clasificar_consulta`: state is
`(mejor_match, mejor_score)`. -/
def pasoPuntuacion (pregunta : List Char)
    (st : Option (String × String × ℚ) × ℚ) (e : String × String × List String) :
    Option (String × String × ℚ) × ℚ :=
  let m := contarCoincidencias pregunta e.2.2
  if 0 < m then
    let score : ℚ := (m : ℚ) / (e.2.2.length : ℚ)
    if st.2 < score then (some (e.1, e.2.1, score), score) else st
  else st

/-- The keyword-scoring phase of `clasificar_consulta` (the two nested
loops plus the fallback). -/
def clasificarPorPalabras (f : Fila) : String × String × ℚ :=
  let pregunta := f.pregunta_limpia.getD (limpiar_valor f.user_utterances)
  let r := entradasTaxonomia.foldl (pasoPuntuacion pregunta) (none, 0)
  match r.1 with
  | some m => m
  | none => ("Sin Clasificar", "Otros", 0)

/-- `clasificar_consulta` (`utils.py`): the native-intent override,
otherwise keyword scoring. -/
def clasificar_consulta (f : Fila) : String × String × ℚ :=
  match f.intent_name with
  | some i =>
    if i ∉ SENTINELAS_INTENT then
      (String.mk (pyTitle (reemplazarGuionBajo i.toList)), "Por Intent", 9/10)
    else clasificarPorPalabras f
  | none => clasificarPorPalabras f

/-- A row of the enriched dataset: the processed row plus the three
columns attached by the classifier. -/
structure FilaClasificada where
  fila : Fila
  categoria : String
  subcategoria : String
  confidence : ℚ
deriving DecidableEq, Repr

/-- The noise-filter condition of `cargar_y_procesar_datos`: a row is
kept when its `pregunta_limpia` is not a noise word and is longer than
2 characters. -/
def pasaFiltroRuido (p : List Char) : Bool :=
  !(p ∈ PALABRAS_RUIDO) && 2 < p.length

/-- `df['pregunta_limpia'] = df['user_utterances'].apply(limpiar_texto)`
on one row: attach the normalized utterance, changing nothing else. -/
def procesarFila (f : Fila) : Fila :=
  { f with pregunta_limpia := some (limpiar_valor f.user_utterances) }

/-- Attach the classifier's three columns to a row. -/
def clasificarFila (f : Fila) : FilaClasificada :=
  let r := clasificar_consulta f
  ⟨f, r.1, r.2.1, r.2.2⟩

/-- `cargar_y_procesar_datos` (`data_loader.py`), after parsing and
schema validation: add `pregunta_limpia`, noise-filter, classify.
Returns `(df, df_limpio)`. -/
def cargar_y_procesar_datos (rows : List Fila) : List Fila × List FilaClasificada :=
  let df := rows.map procesarFila
  let df_limpio := df.filter (fun f => pasaFiltroRuido (f.pregunta_limpia.getD []))
  (df, df_limpio.map clasificarFila)

/-- `df.groupby('conversation_name')['turn_position'].max()` at one key:
the greatest `turn_position` among the rows of that conversation. -/
def maxTurnoDe (df : List FilaClasificada) (c : String) : Nat :=
  ((df.filter (fun f => f.fila.conversation_name = c)).map
    (fun f => f.fila.turn_position)).foldl max 0

/-- The conversations whose maximum `turn_position` in `df` meets
`turnos_min` (`conversaciones_validas` in `aplicar_filtros`). -/
def conversacionesValidas (df : List FilaClasificada) (turnos_min : Nat) : List String :=
  (clavesEnOrden (df.map (fun f => f.fila.conversation_name))).filter
    (fun c => turnos_min ≤ maxTurnoDe df c)

/-- `aplicar_filtros` (`data_loader.py`): category and subcategory
equality filters (bypassed by the sentinel `"Todas"`), then the
turn-count filter computed by grouping the function's own `df` argument
by conversation. -/
def aplicar_filtros (df : List FilaClasificada)
    (categoria : String := "Todas") (subcategoria : String := "Todas")
    (turnos_min : Nat := 1) : List FilaClasificada :=
  let df1 := if categoria ≠ "Todas"
    then df.filter (fun f => f.categoria = categoria) else df
  let df2 := if subcategoria ≠ "Todas"
    then df1.filter (fun f => f.subcategoria = subcategoria) else df1
  df2.filter (fun f => f.fila.conversation_name ∈ conversacionesValidas df turnos_min)

/-- The per-value occurrence counts behind `Series.value_counts()`:
distinct values in first-appearance order, each with its count. -/
def conteosCrudos (l : List (List Char)) : List (List Char × Nat) :=
  (clavesEnOrden l).map (fun k => (k, l.count k))

/-- `Series.value_counts()`: count each distinct value (keys in
first-appearance order) and sort by count, descending and stable. -/
def value_counts (l : List (List Char)) : List (List Char × Nat) :=
  (conteosCrudos l).mergeSort (fun a b => decide (b.2 ≤ a.2))

/-- The `pregunta_limpia` column of `df_faqs` in `obtener_top_preguntas`:
the questions surviving the optional greeting / general-category filter. -/
def basePreguntas (df : List FilaClasificada) (filtrar_saludos : Bool) : List (List Char) :=
  (if filtrar_saludos then
      (df.filter (fun f => !es_saludo_basico f.fila.pregunta_limpia)).filter
        (fun f => f.categoria ≠ "Interacciones Generales")
    else df).map (fun f => f.fila.pregunta_limpia.getD [])

/-- `obtener_top_preguntas` (`data_loader.py`): optionally drop basic
greetings and the `"Interacciones Generales"` category, then take the
`n` most frequent normalized questions. -/
def obtener_top_preguntas (df : List FilaClasificada) (n : Nat := 15)
    (filtrar_saludos : Bool := true) : List (List Char × Nat) :=
  (value_counts (basePreguntas df filtrar_saludos)).take n

/-- The normalized question `clasificar_consulta` scores:
`row.get('pregunta_limpia', limpiar_texto(row['user_utterances']))`. -/
def preguntaDe (f : Fila) : List Char :=
  f.pregunta_limpia.getD (limpiar_valor f.user_utterances)

/-- The score a taxonomy entry earns for a question: `matches / len(keywords)`
when some keyword is a substring of the question, otherwise 0 (the entry is
skipped by the loop). -/
def puntuacionEntrada (pregunta : List Char) (e : String × String × List String) : ℚ :=
  if 0 < contarCoincidencias pregunta e.2.2 then
    (contarCoincidencias pregunta e.2.2 : ℚ) / (e.2.2.length : ℚ)
  else 0

/-- `max_turns` of one conversation computed over the original
(pre-noise-filter) dataset. -/
def maxTurnoOriginal (df : List Fila) (c : String) : Nat :=
  ((df.filter (fun f => f.conversation_name = c)).map
    (fun f => f.turn_position)).foldl max 0

/-- The query/filter layer as the spec describes it: the category and
subcategory filters run on the enriched dataset, but the turn-count filter
computes each conversation's `max_turns` from `original_dataset` and
intersects by conversation identifier. -/
def aplicar_filtros_segun_spec (enriched : List FilaClasificada) (original : List Fila)
    (categoria : String := "Todas") (subcategoria : String := "Todas")
    (turnos_min : Nat := 1) : List FilaClasificada :=
  let df1 := if categoria ≠ "Todas"
    then enriched.filter (fun f => f.categoria = categoria) else enriched
  let df2 := if subcategoria ≠ "Todas"
    then df1.filter (fun f => f.subcategoria = subcategoria) else df1
  df2.filter (fun f => f.fila.conversation_name ∈
    (clavesEnOrden (original.map (fun g => g.conversation_name))).filter
      (fun c => turnos_min ≤ maxTurnoOriginal original c))

/-- The metrics dictionary built by `calcular_metricas_conversacion`. -/
structure Metricas where
  total_conversaciones : Nat
  total_interacciones : Nat
  turnos_promedio : ℚ
  turnos_mediana : ℚ
  escalamientos : Nat
  finalizaciones : Nat
  conversaciones_largas : Nat
  conversaciones_df : List (String × Nat × Nat)
deriving DecidableEq, Repr

/-- `Series.median()`: middle of the sorted values, or the mean of the
two middles for an even count. -/
def mediana (l : List Nat) : ℚ :=
  let s := l.mergeSort (fun a b => decide (a ≤ b))
  if s.length % 2 = 1 then ((s.getD (s.length / 2) 0 : Nat) : ℚ)
  else (((s.getD (s.length / 2 - 1) 0 : Nat) : ℚ) + ((s.getD (s.length / 2) 0 : Nat) : ℚ)) / 2

/-- `Series.mean()`. -/
def media (l : List Nat) : ℚ := ((l.sum : Nat) : ℚ) / (l.length : ℚ)

/-- `calcular_metricas_conversacion` (`utils.py`).  `tiene_handoff` /
`tiene_end` model whether the optional columns are present in the
dataframe; the empty dictionary returned for an empty input is `none`. -/
def calcular_metricas_conversacion (df : List Fila)
    (tiene_handoff : Bool := false) (tiene_end : Bool := false) : Option Metricas :=
  if df.isEmpty then none
  else
    let claves := clavesEnOrden (df.map (fun f => f.conversation_name))
    let conversaciones := claves.map (fun c =>
      let filas := df.filter (fun f => f.conversation_name = c)
      (c, (filas.map (fun f => f.turn_position)).foldl max 0, filas.length))
    let escalamientos := if tiene_handoff then
        claves.countP (fun c =>
          (df.filter (fun f => f.conversation_name = c)).any (fun f => f.live_agent_handoff))
      else 0
    let finalizaciones := if tiene_end then
        claves.countP (fun c =>
          (df.filter (fun f => f.conversation_name = c)).any (fun f => f.end_session_exit))
      else 0
    let maximos := conversaciones.map (fun g => g.2.1)
    some
      { total_conversaciones := conversaciones.length
        total_interacciones := df.length
        turnos_promedio := media maximos
        turnos_mediana := mediana maximos
        escalamientos := escalamientos
        finalizaciones := finalizaciones
        conversaciones_largas := maximos.countP (fun m => 10 < m)
        conversaciones_df := conversaciones }

/-! ## Concrete rows used in counterexamples and witnesses -/

/-- A non-noise row of conversation `c1` at turn 1. -/
def filaHolaMundo : Fila :=
  { user_utterances := some "hola mundo".toList, conversation_name := "c1", turn_position := 1 }

/-- A noise row (`"si"`) of conversation `c1` at turn 2. -/
def filaSi : Fila :=
  { user_utterances := some "si".toList, conversation_name := "c1", turn_position := 2 }

/-- The row of scenario C9. -/
def filaALX1 : Fila :=
  { user_utterances := some "necesito cambiar el filtro de mi ALX1".toList,
    conversation_name := "c", turn_position := 1 }

/-- The row of the C3 witness: a keyword-rich utterance plus a valid intent. -/
def filaConIntent : Fila :=
  { user_utterances := some "quiero rastrear mi pedido".toList,
    conversation_name := "c", turn_position := 1, intent_name := some "order_status" }

/-- The row of the C10 witness: the utterance `"otros"`. -/
def filaOtros : Fila :=
  { user_utterances := some "otros".toList, conversation_name := "c", turn_position := 1 }

/-- The row of the C4 witness: an utterance matching no taxonomy keyword. -/
def filaXYZ : Fila :=
  { user_utterances := some "xyzq".toList, conversation_name := "c", turn_position := 1 }

/-! ## Evaluation lemmas

`Rat.div`, `Rat.mul` and `Rat.inv` are `@[irreducible]`, so concrete runs
of the classifier cannot be checked by kernel reduction directly.
`pasoPuntuacionEval` is the same loop body with the score built by the
reducible `mkRat`; it is proved equal to `pasoPuntuacion` and used to
evaluate the classifier on concrete rows. -/

/-- `pasoPuntuacion` with `mkRat` in place of `/` (equal by
`Rat.mkRat_eq_div`), so that concrete folds reduce in the kernel. -/
def pasoPuntuacionEval (pregunta : List Char)
    (st : Option (String × String × ℚ) × ℚ) (e : String × String × List String) :
    Option (String × String × ℚ) × ℚ :=
  let m := contarCoincidencias pregunta e.2.2
  if 0 < m then
    let score : ℚ := mkRat m e.2.2.length
    if st.2 < score then (some (e.1, e.2.1, score), score) else st
  else st

theorem pasoPuntuacion_eq_eval : @pasoPuntuacion = @pasoPuntuacionEval := by
  funext p st e
  simp only [pasoPuntuacion, pasoPuntuacionEval, Rat.mkRat_eq_div]
  push_cast
  rfl

theorem clasificarPorPalabras_eval (f : Fila) :
    clasificarPorPalabras f =
      match (entradasTaxonomia.foldl (pasoPuntuacionEval (preguntaDe f)) (none, 0)).1 with
      | some m => m
      | none => ("Sin Clasificar", "Otros", 0) := by
  unfold clasificarPorPalabras
  rw [pasoPuntuacion_eq_eval]
  rfl

/-! ## Theorems -/

/-- C6: the metrics aggregator applied to an empty dataset returns the
empty result (`none`, modelling the empty dictionary), whether or not the
optional flag columns are present; it never fails. -/
theorem metricas_dataset_vacio (tiene_handoff tiene_end : Bool) :
    calcular_metricas_conversacion [] tiene_handoff tiene_end = none := rfl

/-- C3: a record carrying a non-empty `intent_name` that is none of the
sentinels is classified as the title-cased intent with subcategory
`"Por Intent"` and confidence 0.9, regardless of the utterance. -/
theorem clasificar_prioriza_intent (f : Fila) (i : String)
    (h1 : f.intent_name = some i) (h2 : i ∉ SENTINELAS_INTENT) :
    clasificar_consulta f =
      (String.mk (pyTitle (reemplazarGuionBajo i.toList)), "Por Intent", 9/10) := by
  rw [clasificar_consulta.eq_def, h1]
  simp [h2]

/-- Witness for C3 at a concrete record whose utterance is full of
taxonomy keywords: the intent still wins. -/
theorem clasificar_prioriza_intent_witness :
    clasificar_consulta filaConIntent = ("Order Status", "Por Intent", 9/10) := by
  have h := clasificar_prioriza_intent filaConIntent "order_status" rfl (by decide)
  exact h.trans (by
    rw [show String.mk (pyTitle (reemplazarGuionBajo "order_status".toList)) =
      "Order Status" from by decide])

/-- C9 counterexample: the utterance
`"necesito cambiar el filtro de mi ALX1"` classifies to neither
`"Purificador ALX1"` nor `"Mantenimiento y Soporte"`. -/
theorem clasificacion_alx1_contraejemplo :
    (clasificar_consulta filaALX1).1 ≠ "Purificador ALX1" ∧
    (clasificar_consulta filaALX1).1 ≠ "Mantenimiento y Soporte" := by
  have h : clasificar_consulta filaALX1 = clasificarPorPalabras filaALX1 := rfl
  rw [h, clasificarPorPalabras_eval]
  decide

/-- C9 amended: the utterance classifies to
`("Gestión de Pedidos", "Modificación y Cancelación")` with score 1/6:
the keyword `"cambiar"` earns that earlier subcategory 1/6, the later
`"alx1"` match only ties it (ties keep the first triple), and
`"Cambio de Filtros"` matches nothing because `"cambiar filtro"` is not a
contiguous substring of the utterance. -/
theorem clasificacion_alx1 :
    clasificar_consulta filaALX1 =
      ("Gestión de Pedidos", "Modificación y Cancelación", 1/6) := by
  have h : clasificar_consulta filaALX1 = clasificarPorPalabras filaALX1 := rfl
  have h2 : clasificarPorPalabras filaALX1 =
      ("Gestión de Pedidos", "Modificación y Cancelación", mkRat 1 6) := by
    rw [clasificarPorPalabras_eval]
    decide
  rw [h, h2]
  norm_num [Rat.mkRat_eq_div]

/-- C10: a record with no intent override whose utterance is `"otros"`
is classified `("Sin Clasificar", "Otros")` with confidence 1/3 > 0,
because `"Sin Clasificar"/"Otros"` is itself a taxonomy entry; so that
output pair alone does not imply the fallback was taken. -/
theorem clasificar_otros_confianza_positiva :
    clasificar_consulta filaOtros = ("Sin Clasificar", "Otros", 1/3) ∧ (0 : ℚ) < 1/3 := by
  have h : clasificar_consulta filaOtros = clasificarPorPalabras filaOtros := rfl
  have h2 : clasificarPorPalabras filaOtros = ("Sin Clasificar", "Otros", mkRat 1 3) := by
    rw [clasificarPorPalabras_eval]
    decide
  refine ⟨?_, by norm_num⟩
  rw [h, h2]
  norm_num [Rat.mkRat_eq_div]

theorem mem_clavesAux {α : Type} [DecidableEq α] (l : List α) :
    ∀ (vistos : List α) (x : α), x ∈ clavesAux vistos l ↔ x ∈ l ∧ x ∉ vistos := by
  induction l with
  | nil => simp [clavesAux]
  | cons y t ih =>
    intro vistos x
    by_cases hy : y ∈ vistos
    · rw [clavesAux, if_pos hy, ih]
      constructor
      · exact fun ⟨h1, h2⟩ => ⟨List.mem_cons_of_mem _ h1, h2⟩
      · rintro ⟨h1, h2⟩
        rcases List.mem_cons.mp h1 with rfl | h1
        · exact absurd hy h2
        · exact ⟨h1, h2⟩
    · rw [clavesAux, if_neg hy]
      by_cases hxy : x = y
      · subst hxy
        simp [hy]
      · rw [List.mem_cons]
        simp only [hxy, false_or, ih]
        constructor
        · exact fun ⟨h1, h2⟩ => ⟨List.mem_cons_of_mem _ h1,
            fun hv => h2 (List.mem_cons_of_mem _ hv)⟩
        · rintro ⟨h1, h2⟩
          rcases List.mem_cons.mp h1 with rfl | h1
          · exact absurd rfl hxy
          · exact ⟨h1, fun hv => h2 (by
              rcases List.mem_cons.mp hv with rfl | hv
              · exact absurd rfl hxy
              · exact hv)⟩

theorem mem_clavesEnOrden {α : Type} [DecidableEq α] (l : List α) (x : α) :
    x ∈ clavesEnOrden l ↔ x ∈ l := by
  rw [clavesEnOrden, mem_clavesAux]
  simp

theorem mem_filtro_condicional {α : Type} (l : List α) (c : Prop) [Decidable c]
    (p : α → Bool) (x : α) :
    x ∈ (if c then l.filter p else l) ↔ x ∈ l ∧ (c → p x = true) := by
  by_cases hc : c <;> simp [hc, List.mem_filter]

theorem mem_conversacionesValidas (df : List FilaClasificada) (tmin : Nat) (c : String) :
    c ∈ conversacionesValidas df tmin ↔
      (∃ f ∈ df, f.fila.conversation_name = c) ∧ tmin ≤ maxTurnoDe df c := by
  unfold conversacionesValidas
  rw [List.mem_filter, mem_clavesEnOrden, List.mem_map]
  simp

/-- C1 amended: for every call, the turn-count filter is evaluated
against the very dataset passed to `aplicar_filtros` (the enriched one
at the `app.py` call site): a row survives iff it passes the
category/subcategory filters and its conversation's maximum
`turn_position` over the whole input `df` meets the minimum. -/
theorem aplicar_filtros_caracterizacion (df : List FilaClasificada)
    (categoria subcategoria : String) (turnos_min : Nat) (g : FilaClasificada) :
    g ∈ aplicar_filtros df categoria subcategoria turnos_min ↔
      g ∈ df ∧ (categoria ≠ "Todas" → g.categoria = categoria) ∧
      (subcategoria ≠ "Todas" → g.subcategoria = subcategoria) ∧
      turnos_min ≤ maxTurnoDe df g.fila.conversation_name := by
  unfold aplicar_filtros
  rw [List.mem_filter, mem_filtro_condicional, mem_filtro_condicional]
  simp only [decide_eq_true_eq]
  rw [mem_conversacionesValidas]
  constructor
  · rintro ⟨⟨⟨h1, h2⟩, h3⟩, _, h5⟩
    exact ⟨h1, h2, h3, h5⟩
  · rintro ⟨h1, h2, h3, h4⟩
    exact ⟨⟨⟨h1, h2⟩, h3⟩, ⟨g, h1, rfl⟩, h4⟩

/-- C5: a loaded row survives into the enriched dataset iff its
normalized utterance is not a member of the fixed noise set and is longer
than 2 characters; the original dataset keeps every row, each changed
only by the added `pregunta_limpia` column, and noise rows are never
classified. -/
theorem filtro_ruido_caracterizacion (rows : List Fila) :
    (cargar_y_procesar_datos rows).1 = rows.map procesarFila ∧
    ∀ g : FilaClasificada, g ∈ (cargar_y_procesar_datos rows).2 ↔
      ∃ f ∈ rows,
        (limpiar_valor f.user_utterances ∉ PALABRAS_RUIDO ∧
          2 < (limpiar_valor f.user_utterances).length) ∧
        g = clasificarFila (procesarFila f) := by
  refine ⟨rfl, fun g => ?_⟩
  unfold cargar_y_procesar_datos
  simp only [List.mem_map, List.mem_filter]
  constructor
  · rintro ⟨f', ⟨⟨f, hf, rfl⟩, hcond⟩, rfl⟩
    refine ⟨f, hf, ?_, rfl⟩
    simpa [procesarFila, pasaFiltroRuido] using hcond
  · rintro ⟨f, hf, hcond, rfl⟩
    refine ⟨procesarFila f, ⟨⟨f, hf, rfl⟩, ?_⟩, rfl⟩
    simpa [procesarFila, pasaFiltroRuido] using hcond

theorem foldl_paso_sin_coincidencias (pregunta : List Char)
    (l : List (String × String × List String))
    (h : ∀ e ∈ l, contarCoincidencias pregunta e.2.2 = 0) :
    ∀ st, l.foldl (pasoPuntuacion pregunta) st = st := by
  induction l with
  | nil => intro st; rfl
  | cons e t ih =>
    intro st
    have he := h e (by simp)
    rw [List.foldl_cons, show pasoPuntuacion pregunta st e = st from by
      simp [pasoPuntuacion, he]]
    exact ih (fun e' he' => h e' (List.mem_cons_of_mem _ he')) st

/-- C4: with no valid intent override and no taxonomy keyword occurring
in the normalized utterance, the classifier returns exactly
`("Sin Clasificar", "Otros", 0.0)`; being a total function, it never
fails. -/
theorem clasificar_fallback (f : Fila)
    (hIntent : ∀ i, f.intent_name = some i → i ∈ SENTINELAS_INTENT)
    (hKw : ∀ e ∈ entradasTaxonomia, ∀ kw ∈ e.2.2,
      esSubcadena kw.toList (preguntaDe f) = false) :
    clasificar_consulta f = ("Sin Clasificar", "Otros", 0) := by
  have h0 := foldl_paso_sin_coincidencias (preguntaDe f) entradasTaxonomia (fun e he => by
    rw [contarCoincidencias, List.countP_eq_zero]
    intro kw hkw
    simpa using hKw e he kw hkw) (none, 0)
  rw [pasoPuntuacion_eq_eval] at h0
  have hpal : clasificarPorPalabras f = ("Sin Clasificar", "Otros", 0) := by
    rw [clasificarPorPalabras_eval f, h0]
  rcases hi : f.intent_name with _ | i
  · rw [clasificar_consulta.eq_def, hi]
    exact hpal
  · rw [clasificar_consulta.eq_def, hi]
    simp only [hIntent i hi, not_true_eq_false, if_false]
    exact hpal

/-- Witness for C4: the keyword-free utterance `"xyzq"` with no intent. -/
theorem clasificar_fallback_witness :
    clasificar_consulta filaXYZ = ("Sin Clasificar", "Otros", 0) :=
  clasificar_fallback filaXYZ (fun _ h => nomatch h) (by decide)

theorem puntuacionEntrada_nonneg (p : List Char) (e : String × String × List String) :
    0 ≤ puntuacionEntrada p e := by
  unfold puntuacionEntrada
  split
  · positivity
  · exact le_refl 0

theorem puntuacionEntrada_pos (p : List Char) (e : String × String × List String)
    (h : 0 < contarCoincidencias p e.2.2) : 0 < puntuacionEntrada p e := by
  unfold puntuacionEntrada
  rw [if_pos h]
  have hlen : 0 < e.2.2.length :=
    lt_of_lt_of_le h (by unfold contarCoincidencias; exact List.countP_le_length _)
  exact div_pos (by exact_mod_cast h) (by exact_mod_cast hlen)

/-- The loop body keeps the running best unless the entry's score strictly
beats the running `mejor_score`. -/
theorem pasoPuntuacion_eq_puntuacion (pregunta : List Char)
    (st : Option (String × String × ℚ) × ℚ) (hst : 0 ≤ st.2)
    (e : String × String × List String) :
    pasoPuntuacion pregunta st e =
      if st.2 < puntuacionEntrada pregunta e then
        (some (e.1, e.2.1, puntuacionEntrada pregunta e), puntuacionEntrada pregunta e)
      else st := by
  simp only [pasoPuntuacion, puntuacionEntrada]
  by_cases hm : 0 < contarCoincidencias pregunta e.2.2
  · simp only [if_pos hm]
  · simp only [if_neg hm, if_neg (not_lt.mpr hst)]

/-- The strict-argmax invariant of the classifier's fold: starting from a
nonnegative running score, either nothing beats it and the state is
unchanged, or the fold returns the first entry attaining the maximum
score. -/
theorem foldl_paso_argmax (pregunta : List Char)
    (l : List (String × String × List String)) :
    ∀ (st : Option (String × String × ℚ) × ℚ), 0 ≤ st.2 →
      ((∀ e ∈ l, puntuacionEntrada pregunta e ≤ st.2) →
          l.foldl (pasoPuntuacion pregunta) st = st) ∧
      ((∃ e ∈ l, st.2 < puntuacionEntrada pregunta e) →
        ∃ i : Fin l.length,
          l.foldl (pasoPuntuacion pregunta) st =
            (some ((l.get i).1, (l.get i).2.1, puntuacionEntrada pregunta (l.get i)),
              puntuacionEntrada pregunta (l.get i)) ∧
          st.2 < puntuacionEntrada pregunta (l.get i) ∧
          (∀ j : Fin l.length,
            puntuacionEntrada pregunta (l.get j) ≤ puntuacionEntrada pregunta (l.get i)) ∧
          ∀ j : Fin l.length, (j : Nat) < (i : Nat) →
            puntuacionEntrada pregunta (l.get j) < puntuacionEntrada pregunta (l.get i)) := by
  induction l with
  | nil =>
    intro st hst
    exact ⟨fun _ => rfl, by rintro ⟨e, he, _⟩; exact absurd he (List.not_mem_nil e)⟩
  | cons e t ih =>
    intro st hst
    simp only [List.foldl_cons, pasoPuntuacion_eq_puntuacion pregunta st hst e]
    by_cases hlt : st.2 < puntuacionEntrada pregunta e
    · rw [if_pos hlt]
      obtain ⟨ih1, ih2⟩ :=
        ih (some (e.1, e.2.1, puntuacionEntrada pregunta e), puntuacionEntrada pregunta e)
          (puntuacionEntrada_nonneg _ _)
      constructor
      · intro hall
        exact absurd (hall e (List.mem_cons_self e t)) (not_le.mpr hlt)
      · intro _
        by_cases hex : ∃ x ∈ t, puntuacionEntrada pregunta e < puntuacionEntrada pregunta x
        · obtain ⟨i', hr, hlt', hall', hstrict'⟩ := ih2 hex
          refine ⟨i'.succ, by simpa using hr, lt_trans hlt hlt', ?_, ?_⟩
          · intro j
            refine Fin.cases ?_ ?_ j
            · simpa using le_of_lt hlt'
            · intro j'
              simpa using hall' j'
          · intro j
            refine Fin.cases ?_ ?_ j
            · intro _
              simpa using hlt'
            · intro j' hj
              simpa using hstrict' j' (Nat.succ_lt_succ_iff.mp (by simpa using hj))
        · push_neg at hex
          rw [ih1 hex]
          refine ⟨⟨0, by simp⟩, rfl, hlt, ?_, ?_⟩
          · intro j
            refine Fin.cases ?_ ?_ j
            · exact le_refl _
            · intro j'
              simpa using hex (t.get j') (t.get_mem _ _)
          · intro j hj
            exact absurd hj (by simp)
    · rw [if_neg hlt]
      obtain ⟨ih1, ih2⟩ := ih st hst
      have hle : puntuacionEntrada pregunta e ≤ st.2 := not_lt.mp hlt
      constructor
      · intro hall
        exact ih1 (fun x hx => hall x (List.mem_cons_of_mem _ hx))
      · intro hex
        have hex' : ∃ x ∈ t, st.2 < puntuacionEntrada pregunta x := by
          obtain ⟨x, hx, hltx⟩ := hex
          rcases List.mem_cons.mp hx with rfl | hx
          · exact absurd hltx hlt
          · exact ⟨x, hx, hltx⟩
        obtain ⟨i', hr, hlt', hall', hstrict'⟩ := ih2 hex'
        refine ⟨i'.succ, by simpa using hr, hlt', ?_, ?_⟩
        · intro j
          refine Fin.cases ?_ ?_ j
          · simpa using le_trans hle (le_of_lt hlt')
          · intro j'
            simpa using hall' j'
        · intro j
          refine Fin.cases ?_ ?_ j
          · intro _
            simpa using lt_of_le_of_lt hle hlt'
          · intro j' hj
            simpa using hstrict' j' (Nat.succ_lt_succ_iff.mp (by simpa using hj))

/-- With no valid intent the classifier is exactly the keyword phase. -/
theorem clasificar_sin_intent (f : Fila)
    (hIntent : ∀ i, f.intent_name = some i → i ∈ SENTINELAS_INTENT) :
    clasificar_consulta f = clasificarPorPalabras f := by
  rcases hi : f.intent_name with _ | i
  · rw [clasificar_consulta.eq_def, hi]
  · rw [clasificar_consulta.eq_def, hi]
    simp only [hIntent i hi, not_true_eq_false, if_false]

theorem clasificarPorPalabras_def (f : Fila) :
    clasificarPorPalabras f =
      match (entradasTaxonomia.foldl (pasoPuntuacion (preguntaDe f)) (none, 0)).1 with
      | some m => m
      | none => ("Sin Clasificar", "Otros", 0) := rfl

/-- C2: for a record not decided by the intent override in which some
keyword matches, the classifier returns the (category, subcategory, score)
of the taxonomy entry with the strictly greatest score
`matches / len(keywords)`, ties keeping the first-encountered entry in
taxonomy iteration order. -/
theorem clasificar_argmax (f : Fila)
    (hIntent : ∀ i, f.intent_name = some i → i ∈ SENTINELAS_INTENT)
    (hMatch : ∃ e ∈ entradasTaxonomia, 0 < contarCoincidencias (preguntaDe f) e.2.2) :
    ∃ i : Fin entradasTaxonomia.length,
      clasificar_consulta f =
        ((entradasTaxonomia.get i).1, (entradasTaxonomia.get i).2.1,
          puntuacionEntrada (preguntaDe f) (entradasTaxonomia.get i)) ∧
      0 < puntuacionEntrada (preguntaDe f) (entradasTaxonomia.get i) ∧
      (∀ j : Fin entradasTaxonomia.length,
        puntuacionEntrada (preguntaDe f) (entradasTaxonomia.get j) ≤
          puntuacionEntrada (preguntaDe f) (entradasTaxonomia.get i)) ∧
      ∀ j : Fin entradasTaxonomia.length, (j : Nat) < (i : Nat) →
        puntuacionEntrada (preguntaDe f) (entradasTaxonomia.get j) <
          puntuacionEntrada (preguntaDe f) (entradasTaxonomia.get i) := by
  have hex : ∃ e ∈ entradasTaxonomia, ((none, 0) :
      Option (String × String × ℚ) × ℚ).2 < puntuacionEntrada (preguntaDe f) e := by
    obtain ⟨e, he, hm⟩ := hMatch
    exact ⟨e, he, puntuacionEntrada_pos _ _ hm⟩
  obtain ⟨i, hr, hlt, hall, hstrict⟩ :=
    (foldl_paso_argmax (preguntaDe f) entradasTaxonomia (none, 0) (le_refl 0)).2 hex
  refine ⟨i, ?_, hlt, hall, hstrict⟩
  rw [clasificar_sin_intent f hIntent, clasificarPorPalabras_def, hr]

/-- Witness for C2 at the concrete utterance `"otros"`. -/
theorem clasificar_argmax_witness :
    (∃ e ∈ entradasTaxonomia, 0 < contarCoincidencias (preguntaDe filaOtros) e.2.2) ∧
    ∃ i : Fin entradasTaxonomia.length,
      clasificar_consulta filaOtros =
        ((entradasTaxonomia.get i).1, (entradasTaxonomia.get i).2.1,
          puntuacionEntrada (preguntaDe filaOtros) (entradasTaxonomia.get i)) ∧
      0 < puntuacionEntrada (preguntaDe filaOtros) (entradasTaxonomia.get i) ∧
      (∀ j : Fin entradasTaxonomia.length,
        puntuacionEntrada (preguntaDe filaOtros) (entradasTaxonomia.get j) ≤
          puntuacionEntrada (preguntaDe filaOtros) (entradasTaxonomia.get i)) ∧
      ∀ j : Fin entradasTaxonomia.length, (j : Nat) < (i : Nat) →
        puntuacionEntrada (preguntaDe filaOtros) (entradasTaxonomia.get j) <
          puntuacionEntrada (preguntaDe filaOtros) (entradasTaxonomia.get i) :=
  ⟨by decide, clasificar_argmax filaOtros (fun _ h => nomatch h) (by decide)⟩

/-! ## Idempotence of the normalizer -/

theorem esEspacio_espacio : esEspacio ' ' = true := by decide

theorem no_espacio_ne (c : Char) (h : esEspacio c = false) : c ≠ ' ' := by
  intro hc
  subst hc
  exact absurd h (by decide)

theorem espacio_no_palabra (c : Char) (h : esEspacio c = true) :
    esCaracterPalabra c = false := by
  simp only [esEspacio, Bool.or_eq_true, beq_iff_eq] at h
  rcases h with ((((rfl | rfl) | rfl) | rfl) | rfl) | rfl <;> decide

theorem palabra_no_espacio (c : Char) (h : esCaracterPalabra c = true) :
    esEspacio c = false := by
  cases hesp : esEspacio c with
  | false => rfl
  | true => exact absurd h (by simp [espacio_no_palabra c hesp])

theorem mapFijo {α : Type} (f : α → α) (l : List α) (h : ∀ c ∈ l, f c = c) :
    l.map f = l := by
  induction l with
  | nil => rfl
  | cons c t ih =>
    rw [List.map_cons, h c (List.mem_cons_self c t),
      ih (fun d hd => h d (List.mem_cons_of_mem _ hd))]

theorem pyMinuscula_none (c : Char)
    (h : MINUSCULAS.find? (fun q => q.1 == c) = none) : pyMinuscula c = c := by
  unfold pyMinuscula
  rw [h]

theorem pyMinuscula_some (c : Char) (p : Char × Char)
    (h : MINUSCULAS.find? (fun q => q.1 == c) = some p) : pyMinuscula c = p.2 := by
  unfold pyMinuscula
  rw [h]

theorem minusculas_segunda_none :
    ∀ p ∈ MINUSCULAS, MINUSCULAS.find? (fun q => q.1 == p.2) = none := by decide

theorem pyMinuscula_idem (c : Char) : pyMinuscula (pyMinuscula c) = pyMinuscula c := by
  rcases hfind : MINUSCULAS.find? (fun q => q.1 == c) with _ | p
  · rw [pyMinuscula_none c hfind]
    exact pyMinuscula_none c hfind
  · rw [pyMinuscula_some c p hfind]
    exact pyMinuscula_none p.2 (minusculas_segunda_none p (List.mem_of_find?_eq_some hfind))

theorem dropWhile_head_false {p : Char → Bool} {l : List Char} (c : Char)
    (h : (l.dropWhile p).head? = some c) : p c = false := by
  have hd := List.head?_dropWhile_not p l
  rw [h] at hd
  exact hd

theorem dropWhile_fijo {p : Char → Bool} {l : List Char}
    (h : ∀ c, l.head? = some c → p c = false) : l.dropWhile p = l := by
  cases l with
  | nil => rfl
  | cons c t => exact List.dropWhile_cons_of_neg (by simp [h c rfl])

theorem getLast?_of_suffix {l₁ l₂ : List Char} (h : l₁ <:+ l₂) (hne : l₁ ≠ []) :
    l₁.getLast? = l₂.getLast? := by
  obtain ⟨t, rfl⟩ := h
  rw [List.getLast?_append]
  cases hl : l₁.getLast? with
  | none =>
    cases l₁ with
    | nil => exact absurd rfl hne
    | cons a u => simp at hl
  | some c => rfl

theorem recortar_idem (l : List Char) : recortar (recortar l) = recortar l := by
  have h1 : (recortar l).dropWhile esEspacio = recortar l := by
    apply dropWhile_fijo
    intro c hc
    unfold recortar at hc
    rw [List.head?_reverse] at hc
    have hne : (l.dropWhile esEspacio).reverse.dropWhile esEspacio ≠ [] := by
      intro h0
      rw [h0] at hc
      simp at hc
    rw [getLast?_of_suffix (List.dropWhile_suffix _) hne, List.getLast?_reverse] at hc
    exact dropWhile_head_false c hc
  have h2 : (recortar l).reverse.dropWhile esEspacio = (recortar l).reverse := by
    apply dropWhile_fijo
    intro c hc
    unfold recortar at hc
    rw [List.reverse_reverse] at hc
    exact dropWhile_head_false c hc
  show (((recortar l).dropWhile esEspacio).reverse.dropWhile esEspacio).reverse = recortar l
  rw [h1, h2, List.reverse_reverse]

theorem mem_recortar {l : List Char} {c : Char} (h : c ∈ recortar l) : c ∈ l := by
  unfold recortar at h
  rw [List.mem_reverse] at h
  have h2 := (List.dropWhile_sublist _).subset h
  rw [List.mem_reverse] at h2
  exact (List.dropWhile_sublist _).subset h2

theorem chain_recortar {R : Char → Char → Prop} {l : List Char}
    (h : List.Chain' R l) : List.Chain' R (recortar l) := by
  unfold recortar
  rw [List.chain'_reverse]
  refine List.Chain'.suffix ?_ (List.dropWhile_suffix _)
  rw [List.chain'_reverse]
  exact (h.suffix (List.dropWhile_suffix _))

theorem colapsar_head_true (l : List Char) :
    ∀ c, (colapsarAux true l).head? = some c → esEspacio c = false := by
  induction l with
  | nil =>
    intro c hc
    simp [colapsarAux] at hc
  | cons d t ih =>
    intro c hc
    by_cases hd : esEspacio d
    · simp only [colapsarAux, hd, if_true, if_pos] at hc
      exact ih c hc
    · simp only [colapsarAux, hd, Bool.false_eq_true, if_false, List.head?_cons,
        Option.some.injEq] at hc
      rw [← hc]
      simpa using hd

theorem colapsar_chain (l : List Char) :
    ∀ b, List.Chain' (fun a b : Char => a = ' ' → b ≠ ' ') (colapsarAux b l) := by
  induction l with
  | nil =>
    intro b
    simp [colapsarAux]
  | cons d t ih =>
    intro b
    by_cases hd : esEspacio d
    · cases b
      · simp only [colapsarAux, hd, if_true, if_false, Bool.false_eq_true]
        rw [List.chain'_cons']
        refine ⟨?_, ih true⟩
        intro y hy _
        exact no_espacio_ne y (colapsar_head_true t y (Option.mem_def.mp hy))
      · simp only [colapsarAux, hd, if_true, if_pos]
        exact ih true
    · simp only [colapsarAux, hd, Bool.false_eq_true, if_false]
      rw [List.chain'_cons']
      refine ⟨?_, ih false⟩
      intro y _ hd'
      exact absurd hd' (no_espacio_ne d (by simpa using hd))

theorem colapsar_mem (l : List Char) :
    ∀ (b : Bool) (c : Char), c ∈ colapsarAux b l →
      (c ∈ l ∧ esEspacio c = false) ∨ c = ' ' := by
  induction l with
  | nil =>
    intro b c hc
    simp [colapsarAux] at hc
  | cons d t ih =>
    intro b c hc
    by_cases hd : esEspacio d
    · have hrec : ∀ c, c ∈ colapsarAux true t →
          (c ∈ d :: t ∧ esEspacio c = false) ∨ c = ' ' := by
        intro c' hc'
        rcases ih true c' hc' with ⟨h1, h2⟩ | h1
        · exact Or.inl ⟨List.mem_cons_of_mem _ h1, h2⟩
        · exact Or.inr h1
      cases b
      · simp only [colapsarAux, hd, if_true, if_false, Bool.false_eq_true] at hc
        rcases List.mem_cons.mp hc with rfl | hc
        · exact Or.inr rfl
        · exact hrec c hc
      · simp only [colapsarAux, hd, if_true, if_pos] at hc
        exact hrec c hc
    · simp only [colapsarAux, hd, Bool.false_eq_true, if_false] at hc
      rcases List.mem_cons.mp hc with rfl | hc
      · exact Or.inl ⟨List.mem_cons_self _ _, by simpa using hd⟩
      · rcases ih false c hc with ⟨h1, h2⟩ | h1
        · exact Or.inl ⟨List.mem_cons_of_mem _ h1, h2⟩
        · exact Or.inr h1

theorem colapsar_fijo : ∀ l : List Char,
    (∀ c ∈ l, esCaracterPalabra c = true ∨ c = ' ') →
    List.Chain' (fun a b : Char => a = ' ' → b ≠ ' ') l →
    (colapsarAux false l = l ∧ (l.head? ≠ some ' ' → colapsarAux true l = l)) := by
  intro l
  induction l with
  | nil => exact fun _ _ => ⟨rfl, fun _ => rfl⟩
  | cons d t ih =>
    intro hP2 hCh
    obtain ⟨hhead, hCt⟩ := List.chain'_cons'.mp hCh
    obtain ⟨ih1, ih2⟩ := ih (fun c hc => hP2 c (List.mem_cons_of_mem _ hc)) hCt
    rcases hP2 d (List.mem_cons_self d t) with hw | hsp
    · have hd : esEspacio d = false := palabra_no_espacio d hw
      constructor
      · simp [colapsarAux, hd, ih1]
      · intro _
        simp [colapsarAux, hd, ih1]
    · subst hsp
      constructor
      · have hht : t.head? ≠ some ' ' := by
          intro h0
          exact (hhead ' ' (Option.mem_def.mpr h0) rfl) rfl
        simp [colapsarAux, esEspacio_espacio, ih2 hht]
      · intro hne
        exact absurd rfl hne

theorem sustituir_fijo (l : List Char)
    (h : ∀ c ∈ l, esCaracterPalabra c = true ∨ c = ' ') :
    sustituirNoPalabra l = l := by
  apply mapFijo
  intro c hc
  rcases h c hc with hw | rfl
  · simp [hw]
  · decide

theorem sustituir_tipos (l : List Char) :
    ∀ c ∈ sustituirNoPalabra l, esCaracterPalabra c = true ∨ esEspacio c = true := by
  intro c hc
  obtain ⟨a, _, rfl⟩ := List.mem_map.mp hc
  by_cases h : (esCaracterPalabra a || esEspacio a) = true
  · rw [if_pos h]
    simpa using h
  · rw [if_neg h]
    right
    decide

theorem sustituir_minusculas (l : List Char)
    (hl : ∀ c ∈ l, pyMinuscula c = c) :
    ∀ c ∈ sustituirNoPalabra l, pyMinuscula c = c := by
  intro c hc
  obtain ⟨a, ha, rfl⟩ := List.mem_map.mp hc
  by_cases h : (esCaracterPalabra a || esEspacio a) = true
  · rw [if_pos h]
    exact hl a ha
  · rw [if_neg h]
    decide

theorem limpiar_propiedades (s : List Char) :
    (∀ c ∈ limpiar_texto s, pyMinuscula c = c) ∧
    (∀ c ∈ limpiar_texto s, esCaracterPalabra c = true ∨ c = ' ') ∧
    List.Chain' (fun a b : Char => a = ' ' → b ≠ ' ') (limpiar_texto s) := by
  have hW1 : ∀ c ∈ recortar (s.map pyMinuscula), pyMinuscula c = c := by
    intro c hc
    obtain ⟨a, _, rfl⟩ := List.mem_map.mp (mem_recortar hc)
    exact pyMinuscula_idem a
  have hX1 := sustituir_minusculas _ hW1
  have hX2 := sustituir_tipos (recortar (s.map pyMinuscula))
  refine ⟨?_, ?_, ?_⟩
  · intro c hc
    rcases colapsar_mem _ false c (mem_recortar hc) with ⟨h1, _⟩ | rfl
    · exact hX1 c h1
    · decide
  · intro c hc
    rcases colapsar_mem _ false c (mem_recortar hc) with ⟨h1, h2⟩ | rfl
    · rcases hX2 c h1 with hw | hsp
      · exact Or.inl hw
      · rw [hsp] at h2
        exact absurd h2 (by simp)
    · exact Or.inr rfl
  · exact chain_recortar (colapsar_chain _ false)

theorem limpiar_fijo (L : List Char)
    (h1 : ∀ c ∈ L, pyMinuscula c = c)
    (h2 : ∀ c ∈ L, esCaracterPalabra c = true ∨ c = ' ')
    (h3 : List.Chain' (fun a b : Char => a = ' ' → b ≠ ' ') L)
    (hrec : recortar L = L) :
    limpiar_texto L = L := by
  unfold limpiar_texto
  rw [mapFijo _ _ h1, hrec, sustituir_fijo L h2,
    show colapsarEspacios L = L from (colapsar_fijo L h2 h3).1]
  exact hrec

/-- C7: the text normalizer is idempotent, both on strings and on
arbitrary (possibly non-string) cell values. -/
theorem limpiar_texto_idempotente :
    (∀ s : List Char, limpiar_texto (limpiar_texto s) = limpiar_texto s) ∧
    ∀ x : Option (List Char), limpiar_valor (some (limpiar_valor x)) = limpiar_valor x := by
  have hmain : ∀ s : List Char, limpiar_texto (limpiar_texto s) = limpiar_texto s := by
    intro s
    obtain ⟨h1, h2, h3⟩ := limpiar_propiedades s
    refine limpiar_fijo _ h1 h2 h3 ?_
    show recortar (recortar
      (colapsarEspacios (sustituirNoPalabra (recortar (s.map pyMinuscula))))) = _
    rw [recortar_idem]
    rfl
  refine ⟨hmain, fun x => ?_⟩
  cases x with
  | none => rfl
  | some s => exact hmain s

theorem pairwise_filter_cuenta {α : Type} (l : List (α × Nat)) (k : Nat)
    (R : α × Nat → α × Nat → Prop) (h : ∀ a b : α × Nat, a.2 = k → b.2 = k → R a b) :
    (l.filter (fun x => x.2 = k)).Pairwise R := by
  induction l with
  | nil => exact List.Pairwise.nil
  | cons a t ih =>
    by_cases ha : a.2 = k
    · rw [List.filter_cons_of_pos (by simpa using ha)]
      exact List.Pairwise.cons
        (fun b hb => h a b ha (by simpa using (List.mem_filter.mp hb).2)) ih
    · rw [List.filter_cons_of_neg (by simpa using ha)]
      exact ih

/-- The comparison `value_counts` sorts by: descending count. -/
theorem cuentaDesc_trans : ∀ a b c : List Char × Nat,
    (fun a b : List Char × Nat => decide (b.2 ≤ a.2)) a b →
    (fun a b : List Char × Nat => decide (b.2 ≤ a.2)) b c →
    (fun a b : List Char × Nat => decide (b.2 ≤ a.2)) a c := by
  intro a b c hab hbc
  simp only [decide_eq_true_eq] at hab hbc ⊢
  exact le_trans hbc hab

theorem cuentaDesc_total : ∀ a b : List Char × Nat,
    ((fun a b : List Char × Nat => decide (b.2 ≤ a.2)) a b ||
     (fun a b : List Char × Nat => decide (b.2 ≤ a.2)) b a) := by
  intro a b
  rcases Nat.le_total a.2 b.2 with h | h <;> simp [h]

/-- C8: `obtener_top_preguntas` ranks the first-appearance groups of
normalized questions with their occurrence counts: together with the
dropped remainder it is a permutation of the group counts, it is sorted
by descending count, nothing dropped beats anything kept, its length is
`min n` (number of groups), and within any fixed count the kept rows
appear in first-appearance order (stable ties).  Being a pure function
of its input, the ranking is identical across repeated runs. -/
theorem top_preguntas_caracterizacion (df : List FilaClasificada) (n : Nat)
    (filtrar_saludos : Bool) :
    ∃ resto : List (List Char × Nat),
      (obtener_top_preguntas df n filtrar_saludos ++ resto).Perm
        (conteosCrudos (basePreguntas df filtrar_saludos)) ∧
      (obtener_top_preguntas df n filtrar_saludos).Pairwise
        (fun a b : List Char × Nat => b.2 ≤ a.2) ∧
      (∀ a ∈ obtener_top_preguntas df n filtrar_saludos, ∀ b ∈ resto, b.2 ≤ a.2) ∧
      (obtener_top_preguntas df n filtrar_saludos).length =
        min n (conteosCrudos (basePreguntas df filtrar_saludos)).length ∧
      ∀ k : Nat, List.Sublist
        ((obtener_top_preguntas df n filtrar_saludos).filter (fun x => x.2 = k))
        ((conteosCrudos (basePreguntas df filtrar_saludos)).filter (fun x => x.2 = k)) := by
  refine ⟨(value_counts (basePreguntas df filtrar_saludos)).drop n, ?_, ?_, ?_, ?_, ?_⟩
  · rw [show obtener_top_preguntas df n filtrar_saludos =
      (value_counts (basePreguntas df filtrar_saludos)).take n from rfl,
      List.take_append_drop]
    exact List.mergeSort_perm _ _
  · have hs := List.sorted_mergeSort cuentaDesc_trans cuentaDesc_total
      (conteosCrudos (basePreguntas df filtrar_saludos))
    exact ((hs.sublist (List.take_sublist _ _)).imp (fun h => by simpa using h))
  · have hs := List.sorted_mergeSort cuentaDesc_trans cuentaDesc_total
      (conteosCrudos (basePreguntas df filtrar_saludos))
    rw [← List.take_append_drop n
      (List.mergeSort (conteosCrudos (basePreguntas df filtrar_saludos))
        (fun a b => decide (b.2 ≤ a.2)))] at hs
    have := (List.pairwise_append.mp hs).2.2
    intro a ha b hb
    simpa using this a ha b hb
  · rw [show obtener_top_preguntas df n filtrar_saludos =
      (value_counts (basePreguntas df filtrar_saludos)).take n from rfl,
      List.length_take, value_counts, List.length_mergeSort]
  · intro k
    have hcpair : ((conteosCrudos (basePreguntas df filtrar_saludos)).filter
        (fun x => x.2 = k)).Pairwise (fun a b : List Char × Nat => decide (b.2 ≤ a.2)) :=
      pairwise_filter_cuenta _ k _ (fun a b h1 h2 => by simp [h1, h2])
    have hcsub : List.Sublist ((conteosCrudos (basePreguntas df filtrar_saludos)).filter
        (fun x => x.2 = k)) (value_counts (basePreguntas df filtrar_saludos)) :=
      List.sublist_mergeSort cuentaDesc_trans cuentaDesc_total hcpair
        (List.filter_sublist _)
    have hall : ∀ x ∈ (conteosCrudos (basePreguntas df filtrar_saludos)).filter
        (fun x => x.2 = k), (fun x : List Char × Nat => decide (x.2 = k)) x = true := by
      intro x hx
      simpa using (List.mem_filter.mp hx).2
    have heq : (value_counts (basePreguntas df filtrar_saludos)).filter
        (fun x => x.2 = k) =
        (conteosCrudos (basePreguntas df filtrar_saludos)).filter (fun x => x.2 = k) := by
      have h1 : List.Sublist ((conteosCrudos (basePreguntas df filtrar_saludos)).filter
          (fun x => x.2 = k))
          ((value_counts (basePreguntas df filtrar_saludos)).filter (fun x => x.2 = k)) := by
        have := hcsub.filter (fun x : List Char × Nat => decide (x.2 = k))
        rwa [List.filter_eq_self.mpr hall] at this
      have h2 : ((value_counts (basePreguntas df filtrar_saludos)).filter
          (fun x => x.2 = k)).length =
          ((conteosCrudos (basePreguntas df filtrar_saludos)).filter
            (fun x => x.2 = k)).length :=
        ((List.mergeSort_perm _ _).filter _).length_eq
      exact (h1.eq_of_length h2.symm).symm
    rw [show obtener_top_preguntas df n filtrar_saludos =
      (value_counts (basePreguntas df filtrar_saludos)).take n from rfl, ← heq]
    exact (List.take_sublist _ _).filter _

/-- C1 counterexample: on a dataset where conversation `c1` reaches turn 2
only through a noise row, filtering with `turnos_min = 2` returns nothing,
whereas the spec's two-dataset join (max turns computed on the original
dataset) keeps the surviving row: `aplicar_filtros` evaluates the
turn-count filter on the dataset it is given — the enriched one at the
`app.py` call site — not on the original dataset. -/
theorem aplicar_filtros_contraejemplo :
    aplicar_filtros (cargar_y_procesar_datos [filaHolaMundo, filaSi]).2 "Todas" "Todas" 2 ≠
    aplicar_filtros_segun_spec (cargar_y_procesar_datos [filaHolaMundo, filaSi]).2
      (cargar_y_procesar_datos [filaHolaMundo, filaSi]).1 "Todas" "Todas" 2 := by
  intro h
  have hL : aplicar_filtros (cargar_y_procesar_datos [filaHolaMundo, filaSi]).2
      "Todas" "Todas" 2 = [] := rfl
  have hR : (aplicar_filtros_segun_spec (cargar_y_procesar_datos [filaHolaMundo, filaSi]).2
      (cargar_y_procesar_datos [filaHolaMundo, filaSi]).1 "Todas" "Todas" 2).length = 1 := rfl
  rw [← h, hL] at hR
  exact absurd hR (by simp)

end Dashboard
